import Mathlib

/-!
Verification development for the `graphql-cli-prepare` command plugin
(`src/prepare.ts`, class `Prepare`).

The development shallowly embeds the plugin's orchestration and path
resolution logic.  Filesystem access, the status spinner, and the
configuration store are modelled as a state/trace monad `M`; the external
collaborators (the schema flattener `importSchema` and the code generator
`generateCode`) are abstract functions supplied through `Externals`.
Project configuration documents are modelled as a small JSON-like value
type, and the lodash helpers `get` / `has` / `merge` used by the plugin
are embedded over it.
-/

/-- Configuration document values: the plugin only ever reads strings and
nested objects from a project's config, so the model has exactly those two
shapes.  An object is an association list of fields in insertion order. -/
inductive JSON where
  | str (s : String)
  | obj (fields : List (String × JSON))

/-- First-match lookup in an association list keyed by strings. -/
def assocLookup {β : Type} : List (String × β) → String → Option β
  | [], _ => none
  | (k, v) :: rest, key => if k = key then some v else assocLookup rest key

/-- JS-style property assignment on an association list: update the key in
place when present (keeping insertion order), otherwise append it. -/
def assocSet {β : Type} (fs : List (String × β)) (key : String) (v : β) :
    List (String × β) :=
  if (assocLookup fs key).isSome then
    fs.map (fun p => if p.1 = key then (key, v) else p)
  else fs ++ [(key, v)]

/-- JS `delete obj[key]`: remove the property entirely. -/
def removeField (fs : List (String × JSON)) (key : String) :
    List (String × JSON) :=
  fs.filter (fun p => p.1 ≠ key)

/-- Model of lodash `get(obj, path)` with the path already split on dots
(lodash turns `"extensions.bundle.output"` into
`["extensions", "bundle", "output"]`).  Traversal of a missing key or of a
string value yields `none` (JS `undefined`). -/
def lodashGet : JSON → List String → Option JSON
  | v, [] => some v
  | JSON.obj fields, key :: rest =>
    match assocLookup fields key with
    | some w => lodashGet w rest
    | none => none
  | JSON.str _, _ :: _ => none

/-- Model of lodash `has(obj, path)`. -/
def lodashHas (v : JSON) (path : List String) : Bool :=
  (lodashGet v path).isSome

/-- JS string coercion for a config value read where a string is expected;
real configurations store strings at the paths the plugin reads. -/
def jsonToStr : JSON → String
  | JSON.str v => v
  | JSON.obj _ => "[object Object]"

mutual
/-- Model of lodash `merge(dest, source)` on a single value: objects are
merged recursively, any other source value replaces the destination. -/
def lodashMergeVal : JSON → JSON → JSON
  | JSON.obj df, JSON.obj sf => JSON.obj (lodashMergeObj df sf)
  | _, s => s
termination_by _ s => sizeOf s

/-- Model of lodash `merge` over the fields of two objects: each source
field is assigned over the destination (recursively merging when both
sides are objects); destination fields absent from the source survive. -/
def lodashMergeObj (df : List (String × JSON)) :
    List (String × JSON) → List (String × JSON)
  | [] => df
  | (k, sv) :: rest =>
    lodashMergeObj
      (assocSet df k
        (match assocLookup df k with
         | some dv => lodashMergeVal dv sv
         | none => sv))
      rest
termination_by sf => sizeOf sf
end

/-- Model of `chalk.green`: terminal colouring is abstracted away, the
message text is unchanged. -/
def chalkGreen (s : String) : String := s

/-- Model of JS `String.prototype.endsWith`: the suffix test on the
underlying character lists. -/
def strEndsWith (s suffix : String) : Bool :=
  decide (suffix.data <:+ s.data)

/-- Split a character list on `/`, accumulating the current segment. -/
def splitSlash : List Char → List Char → List (List Char)
  | [], acc => [acc.reverse]
  | c :: cs, acc =>
    if c = '/' then acc.reverse :: splitSlash cs [] else splitSlash cs (c :: acc)

/-- Model of Node `path.dirname` for relative paths: everything before the
last separator, `"."` when there is none. -/
def pathDirname (p : String) : String :=
  let parts := splitSlash p.data []
  if parts.length ≤ 1 then "." else
    String.mk (List.intercalate ['/'] (parts.dropLast))

/-- Model of Node `path.basename`: the last separator-delimited segment. -/
def pathBasename (p : String) : String :=
  String.mk (((splitSlash p.data []).getLast?).getD [])

/-- Model of Node `path.join` for the argument shapes the plugin produces
(no trailing separators, no `..` segments): concatenate with one separator
and normalise away a leading `./`, as Node does. -/
def pathJoin (a b : String) : String :=
  let s := a ++ "/" ++ b
  match s.data with
  | '.' :: '/' :: rest => String.mk rest
  | _ => s

/-- JS truthiness of an optional string command-line value: absent and
empty strings are falsy. -/
def truthyS : Option String → Bool
  | none => false
  | some v => v ≠ ""

/-- The `--project` run argument: absent, a single name, or repeated. -/
inductive ProjectArg where
  | noProject
  | single (name : String)
  | multi (names : List String)

/-- JS truthiness of `argv.project` (an empty string is falsy, an array is
always truthy). -/
def ProjectArg.truthy : ProjectArg → Bool
  | .noProject => false
  | .single n => n ≠ ""
  | .multi _ => true

/-- The parsed run arguments consumed by the `Prepare` class. -/
structure Arguments where
  project : ProjectArg
  output : Option String
  save : Bool
  bundle : Bool
  bindings : Bool
  generator : Option String
  verbose : Bool

/-- A project as delivered by graphql-config: its resolved `schemaPath`
(optional) and its raw configuration document. -/
structure GraphQLProjectConfig where
  schemaPath : Option String
  config : JSON

/-- The host configuration store: the named projects it holds and the path
of the configuration file itself. -/
structure GraphQLConfig where
  projects : List (String × GraphQLProjectConfig)
  configPath : String

/-- The per-project mutable fields of the `Prepare` class:
`this.project`, `this.projectName` and `this.bundleExtensionConfig` (the
`prepare-bundle` output path produced earlier in the same run, if any). -/
structure PrepareState where
  project : GraphQLProjectConfig
  projectName : String
  bundleExtensionConfig : Option String

/-- The external collaborators: `importSchema` from graphql-import
(flatten a schema file into one schema text) and `generateCode` from
graphql-static-binding (schema text and generator name to source text). -/
structure Externals where
  flatten : String → String
  generate : String → String → String

/-- Observable events of a run, in chronological order: filesystem
operations, collaborator invocations, spinner output, and configuration
store writes. -/
inductive Event where
  | ensureDir (dir : String)
  | writeFile (path contents : String)
  | readFile (path : String)
  | existsCheck (path : String)
  | flatten (path : String)
  | generate (generator : String)
  | spinnerStart (msg : String)
  | spinnerSucceed (msg : String)
  | spinnerInfo (msg : String)
  | spinnerWarn (msg : String)
  | storeSave (projectName : String) (doc : JSON)

/-- The filesystem model: file contents by path, the set of existing
directories, and the directories `fs.ensureDirSync` cannot create. -/
structure FS where
  files : List (String × String)
  dirs : List String
  failDirs : List String

/-- The full run state: filesystem plus the chronological event trace. -/
structure St where
  fs : FS
  trace : List Event

/-- The effect shape of every embedded operation: fallible (thrown `Error`
messages) and state-passing.  A thrown error carries the state reached so
far, so the trace records exactly what happened before the failure. -/
def M (α : Type) : Type := St → Except String α × St

/-- Append one event to the trace. -/
def emitSt (s : St) (e : Event) : St :=
  { s with trace := s.trace ++ [e] }

/-- Spinner `start`. -/
def spinnerStartSt (s : St) (msg : String) : St :=
  emitSt s (Event.spinnerStart msg)

/-- Spinner `succeed`. -/
def spinnerSucceedSt (s : St) (msg : String) : St :=
  emitSt s (Event.spinnerSucceed msg)

/-- Spinner `info`. -/
def spinnerInfoSt (s : St) (msg : String) : St :=
  emitSt s (Event.spinnerInfo msg)

/-- Spinner `warn`. -/
def spinnerWarnSt (s : St) (msg : String) : St :=
  emitSt s (Event.spinnerWarn msg)

/-- Model of `fs.existsSync` on a file path. -/
def existsSyncSt (s : St) (p : String) : Bool × St :=
  ((assocLookup s.fs.files p).isSome, emitSt s (Event.existsCheck p))

/-- Model of `fs.readFileSync(p, 'utf-8')`: the contents, or a thrown
`ENOENT` error when the file is absent. -/
def readFileSyncSt (s : St) (p : String) : Except String String × St :=
  let s := emitSt s (Event.readFile p)
  match assocLookup s.fs.files p with
  | some c => (Except.ok c, s)
  | none => (Except.error ("ENOENT: no such file or directory " ++ p), s)

/-- Model of `fs.writeFileSync(p, c, { flag: 'w' })`: create or overwrite. -/
def writeFileSyncSt (s : St) (p c : String) : St :=
  let s := emitSt s (Event.writeFile p c)
  { s with fs := { s.fs with files := assocSet s.fs.files p c } }

/-- Model of fs-extra `ensureDirSync`: make the directory exist, throwing
when it cannot be created (membership in `failDirs`). -/
def ensureDirSyncSt (s : St) (dir : String) : Except String Unit × St :=
  let s := emitSt s (Event.ensureDir dir)
  if s.fs.failDirs.contains dir then
    (Except.error ("EACCES: cannot create directory " ++ dir), s)
  else
    (Except.ok (),
      { s with fs :=
        { s.fs with dirs :=
          if s.fs.dirs.contains dir then s.fs.dirs else s.fs.dirs ++ [dir] } })

/-- Model of the graphql-config side of
`merge(this.project.extensions, fragment)`: the `extensions` getter
returns `config.extensions || {}`, so when the config document carries an
`extensions` object the lodash merge mutates it in place, and otherwise
the merge lands in a detached empty object and the config is unchanged. -/
def mergeIntoProject (p : GraphQLProjectConfig)
    (frag : List (String × JSON)) : GraphQLProjectConfig :=
  match p.config with
  | JSON.obj fields =>
    match assocLookup fields "extensions" with
    | some (JSON.obj ext) =>
      { p with config :=
          JSON.obj (assocSet fields "extensions" (JSON.obj (lodashMergeObj ext frag))) }
    | _ => p
  | _ => p

/-- Embedding of
`if (has(this.project.config, 'extensions.<key>')) delete this.project.config.extensions[<key>]`
from `Prepare.saveConfig`. -/
def removeExtensionKey (c : JSON) (key : String) : JSON :=
  if lodashHas c ["extensions", key] then
    match c with
    | JSON.obj fields =>
      match assocLookup fields "extensions" with
      | some (JSON.obj ext) =>
        JSON.obj (assocSet fields "extensions" (JSON.obj (removeField ext key)))
      | _ => c
    | _ => c
  else c

/-- Embedding of `Prepare.determineSchemaPath`: the project's declared
base `schemaPath`, else a thrown error. -/
def determineSchemaPath (ps : PrepareState) : M String := fun s =>
  if truthyS ps.project.schemaPath then
    (Except.ok (ps.project.schemaPath.getD ""), s)
  else
    (Except.error
      ("No schemaPath defined for project \x27" ++ ps.projectName ++
        "\x27 in config file."), s)

/-- Embedding of `Prepare.determineGenerator`: the `--generator` run
argument, else the deprecated `binding.generator` extension key (with a
deprecation warning unless `--save` is given), else
`prepare-binding.generator`, else a thrown error. -/
def determineGenerator (argv : Arguments) (ps : PrepareState) : M String := fun s =>
  if truthyS argv.generator then
    (Except.ok (argv.generator.getD ""), s)
  else if lodashHas ps.project.config ["extensions", "binding", "generator"] then
    let s :=
      if !argv.save then
        spinnerWarnSt s
          ("Deprecated extension key \x27binding.generator\x27 found in config file. Use \x27--save\x27 to update to \x27prepare-binding.generator\x27.")
      else s
    (Except.ok
      (jsonToStr ((lodashGet ps.project.config
        ["extensions", "binding", "generator"]).getD (JSON.str ""))), s)
  else if lodashHas ps.project.config ["extensions", "prepare-binding", "generator"] then
    (Except.ok
      (jsonToStr ((lodashGet ps.project.config
        ["extensions", "prepare-binding", "generator"]).getD (JSON.str ""))), s)
  else
    (Except.error
      "Generator cannot be determined. No existing configuration found and no generator parameter specified.", s)

/-- Embedding of `Prepare.determineBindingOutputPath`: the `--output`
folder joined with `<projectName>.<extension>`, else the deprecated
`binding.output` extension key (with a deprecation warning unless
`--save`), else `prepare-binding.output`, else a thrown error; on success
the destination directory is ensured before the path is returned.
This is the resolution if-chain that computes `outputPath`. -/
def resolveBindingOutputPath (argv : Arguments) (ps : PrepareState)
    (extension : String) : M String := fun s =>
  if truthyS argv.output then
    (Except.ok (pathJoin (argv.output.getD "") (ps.projectName ++ "." ++ extension)), s)
  else if lodashHas ps.project.config ["extensions", "binding", "output"] then
    let s :=
      if !argv.save then
        spinnerWarnSt s
          ("Deprecated extension key \x27binding.output\x27 found in config file. Use \x27--save\x27 to update to \x27prepare-binding.output\x27.")
      else s
    (Except.ok
      (jsonToStr ((lodashGet ps.project.config
        ["extensions", "binding", "output"]).getD (JSON.str ""))), s)
  else if lodashHas ps.project.config ["extensions", "prepare-binding", "output"] then
    (Except.ok
      (jsonToStr ((lodashGet ps.project.config
        ["extensions", "prepare-binding", "output"]).getD (JSON.str ""))), s)
  else
    (Except.error
      "Output path cannot be determined. No existing configuration found and no output parameter specified.", s)

/-- The `fs.ensureDirSync(path.dirname(outputPath))` call that follows the
resolution, before the path is returned. -/
def determineBindingOutputPath (argv : Arguments) (ps : PrepareState)
    (extension : String) : M String := fun s =>
  match resolveBindingOutputPath argv ps extension s with
  | (Except.error e, s) => (Except.error e, s)
  | (Except.ok outputPath, s) =>
    match ensureDirSyncSt s (pathDirname outputPath) with
    | (Except.error e, s) => (Except.error e, s)
    | (Except.ok _, s) => (Except.ok outputPath, s)

/-- Embedding of `Prepare.determineBundleOutputPath`: the `--output`
folder joined with `<projectName>.graphql`, else the deprecated `bundle`
extension key (with a deprecation warning unless `--save`), else
`prepare-bundle`, else a thrown error; on success the destination
directory is ensured before the path is returned. -/
def resolveBundleOutputPath (argv : Arguments) (ps : PrepareState) :
    M String := fun s =>
  if truthyS argv.output then
    (Except.ok (pathJoin (argv.output.getD "") (ps.projectName ++ ".graphql")), s)
  else if lodashHas ps.project.config ["extensions", "bundle"] then
    let s :=
      if !argv.save then
        spinnerWarnSt s
          ("Deprecated extension key \x27bundle\x27 found in config file. Use \x27--save\x27 to update to \x27prepare-bundle\x27.")
      else s
    (Except.ok
      (jsonToStr ((lodashGet ps.project.config
        ["extensions", "bundle"]).getD (JSON.str ""))), s)
  else if lodashHas ps.project.config ["extensions", "prepare-bundle"] then
    (Except.ok
      (jsonToStr ((lodashGet ps.project.config
        ["extensions", "prepare-bundle"]).getD (JSON.str ""))), s)
  else
    (Except.error
      "Output path cannot be determined. No existing configuration found and no output parameter specified.", s)

/-- The `fs.ensureDirSync(path.dirname(outputPath))` call that follows the
resolution, before the path is returned. -/
def determineBundleOutputPath (argv : Arguments) (ps : PrepareState) :
    M String := fun s =>
  match resolveBundleOutputPath argv ps s with
  | (Except.error e, s) => (Except.error e, s)
  | (Except.ok outputPath, s) =>
    match ensureDirSyncSt s (pathDirname outputPath) with
    | (Except.error e, s) => (Except.error e, s)
    | (Except.ok _, s) => (Except.ok outputPath, s)

/-- Embedding of `Prepare.determineInputSchema`: the bundle output passed
from a bundle run in the same invocation, else the config value at
`extensions.prepare-bundle.output`, else at `extensions.bundle.output`,
else the project's base `schemaPath`, else a thrown error; the resolved
path must exist on disk, otherwise a `not found` error is thrown whose
message suggests running bundle first exactly when
`extensions.prepare-bundle.output` is present. -/
def determineInputSchema (ps : PrepareState) (schemaPath : Option String) :
    M String := fun s =>
  let bundleDefined :=
    lodashHas ps.project.config ["extensions", "prepare-bundle", "output"]
  let oldBundleDefined :=
    lodashHas ps.project.config ["extensions", "bundle", "output"]
  let resolved : Except String String :=
    if truthyS schemaPath then Except.ok (schemaPath.getD "")
    else if bundleDefined then
      Except.ok
        (jsonToStr ((lodashGet ps.project.config
          ["extensions", "prepare-bundle", "output"]).getD (JSON.str "")))
    else if oldBundleDefined then
      Except.ok
        (jsonToStr ((lodashGet ps.project.config
          ["extensions", "bundle", "output"]).getD (JSON.str "")))
    else if truthyS ps.project.schemaPath then
      Except.ok (ps.project.schemaPath.getD "")
    else
      Except.error "Input schema cannot be determined."
  match resolved with
  | Except.error e => (Except.error e, s)
  | Except.ok p =>
    match existsSyncSt s p with
    | (true, s) => (Except.ok p, s)
    | (false, s) =>
      (Except.error
        ("Schema \x27" ++ p ++ "\x27 not found." ++
          (if bundleDefined then " Did you run bundle first?" else "")), s)

/-- The binding output extension computed in `Prepare.processBindings`:
`generator.endsWith('ts') ? 'ts' : 'js'`. -/
def bindingExtension (generator : String) : String :=
  if strEndsWith generator "ts" then "ts" else "js"

/-- Embedding of `Prepare.processBundle`: resolve the output path, resolve
the input schema path, flatten the schema imports, write the result, and
return the `prepare-bundle` output path. -/
def processBundle (ext : Externals) (argv : Arguments) (ps : PrepareState) :
    M String := fun s =>
  match determineBundleOutputPath argv ps s with
  | (Except.error e, s) => (Except.error e, s)
  | (Except.ok outputPath, s) =>
    match determineSchemaPath ps s with
    | (Except.error e, s) => (Except.error e, s)
    | (Except.ok schemaPath, s) =>
      let finalSchema := ext.flatten schemaPath
      let s := emitSt s (Event.flatten schemaPath)
      let s := writeFileSyncSt s outputPath finalSchema
      (Except.ok outputPath, s)

/-- Embedding of `Prepare.processBindings`: resolve the generator, derive
the extension, resolve the output path, resolve the input schema, read it,
generate the binding code, write it, and return the output path and
generator used. -/
def processBindings (ext : Externals) (argv : Arguments) (ps : PrepareState)
    (schemaPath : Option String) : M (String × String) := fun s =>
  match determineGenerator argv ps s with
  | (Except.error e, s) => (Except.error e, s)
  | (Except.ok generator, s) =>
    let extension := bindingExtension generator
    match determineBindingOutputPath argv ps extension s with
    | (Except.error e, s) => (Except.error e, s)
    | (Except.ok outputPath, s) =>
      match determineInputSchema ps schemaPath s with
      | (Except.error e, s) => (Except.error e, s)
      | (Except.ok schema, s) =>
        match readFileSyncSt s schema with
        | (Except.error e, s) => (Except.error e, s)
        | (Except.ok schemaContents, s) =>
          let finalSchema := ext.generate schemaContents generator
          let s := emitSt s (Event.generate generator)
          let s := writeFileSyncSt s outputPath finalSchema
          (Except.ok (outputPath, generator), s)

/-- The gate of `Prepare.bundle`:
`argv.project || (!argv.project && (has 'extensions.prepare-bundle' || has 'extensions.bundle'))`. -/
def gateBundle (argv : Arguments) (ps : PrepareState) : Bool :=
  argv.project.truthy ||
    (!argv.project.truthy &&
      (lodashHas ps.project.config ["extensions", "prepare-bundle"] ||
        lodashHas ps.project.config ["extensions", "bundle"]))

/-- The gate of `Prepare.bindings`:
`argv.project || (!argv.project && (has 'extensions.prepare-binding' || has 'extensions.binding'))`. -/
def gateBindings (argv : Arguments) (ps : PrepareState) : Bool :=
  argv.project.truthy ||
    (!argv.project.truthy &&
      (lodashHas ps.project.config ["extensions", "prepare-binding"] ||
        lodashHas ps.project.config ["extensions", "binding"]))

/-- The then-branch of `Prepare.bundle`: start the spinner, run
`processBundle`, record the fresh `prepare-bundle` fragment on the class
and merge it into the project's extensions, report success. -/
def Prepare.bundleRun (ext : Externals) (argv : Arguments)
    (ps : PrepareState) : M PrepareState := fun s =>
  let s := spinnerStartSt s
    ("Processing schema imports for project " ++ chalkGreen ps.projectName ++ "...")
  match processBundle ext argv ps s with
  | (Except.error e, s) => (Except.error e, s)
  | (Except.ok out, s) =>
    let ps :=
      { ps with
        bundleExtensionConfig := some out,
        project := mergeIntoProject ps.project [("prepare-bundle", JSON.str out)] }
    let s := spinnerSucceedSt s
      ("Bundled schema for project " ++ chalkGreen ps.projectName ++
        " written to " ++ chalkGreen out)
    (Except.ok ps, s)

/-- Embedding of `Prepare.bundle`: run the bundle step when the gate
passes, otherwise report the skip only in verbose mode. -/
def Prepare.bundle (ext : Externals) (argv : Arguments)
    (ps : PrepareState) : M PrepareState := fun s =>
  if gateBundle argv ps then Prepare.bundleRun ext argv ps s
  else if argv.verbose then
    (Except.ok ps,
      spinnerInfoSt s
        ("Bundling not configured for project " ++ chalkGreen ps.projectName ++
          ". Skipping"))
  else (Except.ok ps, s)

/-- The then-branch of `Prepare.bindings`: start the spinner, run
`processBindings` with the bundle output produced earlier in this run (if
any), merge the fresh `prepare-binding` fragment into the project's
extensions, report success. -/
def Prepare.bindingsRun (ext : Externals) (argv : Arguments)
    (ps : PrepareState) : M PrepareState := fun s =>
  let s := spinnerStartSt s
    ("Generating bindings for project " ++ chalkGreen ps.projectName ++ "...")
  match processBindings ext argv ps ps.bundleExtensionConfig s with
  | (Except.error e, s) => (Except.error e, s)
  | (Except.ok (out, gen), s) =>
    let ps :=
      { ps with
        project :=
          mergeIntoProject ps.project
            [("prepare-binding",
              JSON.obj [("output", JSON.str out), ("generator", JSON.str gen)])] }
    let s := spinnerSucceedSt s
      ("Bindings for project " ++ chalkGreen ps.projectName ++
        " written to " ++ chalkGreen out)
    (Except.ok ps, s)

/-- Embedding of `Prepare.bindings`: run the binding step when the gate
passes, otherwise report the skip only in verbose mode. -/
def Prepare.bindings (ext : Externals) (argv : Arguments)
    (ps : PrepareState) : M PrepareState := fun s =>
  if gateBindings argv ps then Prepare.bindingsRun ext argv ps s
  else if argv.verbose then
    (Except.ok ps,
      spinnerInfoSt s
        ("Binding not configured for project " ++ chalkGreen ps.projectName ++
          ". Skipping"))
  else (Except.ok ps, s)

/-- Embedding of `Prepare.saveConfig`: drop the deprecated
`extensions.bundle` and `extensions.binding` keys from the project config
and write it through the configuration store. -/
def Prepare.saveConfig (ps : PrepareState) : M PrepareState := fun s =>
  let conf :=
    removeExtensionKey (removeExtensionKey ps.project.config "bundle") "binding"
  let ps := { ps with project := { ps.project with config := conf } }
  let s := emitSt s (Event.storeSave ps.projectName conf)
  (Except.ok ps, s)

/-- Embedding of `Prepare.save`: when `--save` is given, persist the
project configuration with progress reporting; otherwise do nothing. -/
def Prepare.save (cfg : GraphQLConfig) (argv : Arguments)
    (ps : PrepareState) : M PrepareState := fun s =>
  if argv.save then
    let configFile := pathBasename cfg.configPath
    let s := spinnerStartSt s
      ("Saving configuration for project " ++ chalkGreen ps.projectName ++
        " to " ++ chalkGreen configFile ++ "...")
    match Prepare.saveConfig ps s with
    | (Except.error e, s) => (Except.error e, s)
    | (Except.ok ps, s) =>
      (Except.ok ps,
        spinnerSucceedSt s
          ("Configuration for project " ++ chalkGreen ps.projectName ++
            " saved to " ++ chalkGreen configFile))
  else (Except.ok ps, s)

/-- Look up each requested project in the host configuration, mirroring
`this.argv.project.map(p => merge(projects, { [p]: this.config.getProjectConfig(p) }))`;
an unknown project name is a thrown host error. -/
def collectProjects (cfg : GraphQLConfig) :
    List String → M (List (String × GraphQLProjectConfig))
  | [] => fun s => (Except.ok [], s)
  | p :: rest => fun s =>
    match assocLookup cfg.projects p with
    | none => (Except.error ("Project \x27" ++ p ++ "\x27 not found in config"), s)
    | some pr =>
      match collectProjects cfg rest s with
      | (Except.error e, s) => (Except.error e, s)
      | (Except.ok prs, s) => (Except.ok ((p, pr) :: prs), s)

/-- Embedding of `Prepare.getProjectConfig`: the requested subset of
projects (single name or list of names), or every project in the host
configuration when `--project` is absent. -/
def Prepare.getProjectConfig (cfg : GraphQLConfig) (argv : Arguments) :
    M (List (String × GraphQLProjectConfig)) := fun s =>
  if argv.project.truthy then
    match argv.project with
    | ProjectArg.multi ps => collectProjects cfg ps s
    | ProjectArg.single p =>
      (match assocLookup cfg.projects p with
       | none => (Except.error ("Project \x27" ++ p ++ "\x27 not found in config"), s)
       | some pr => (Except.ok [(p, pr)], s))
    | ProjectArg.noProject => (Except.ok cfg.projects, s)
  else (Except.ok cfg.projects, s)

/-- One iteration of the loop in `Prepare.handle`: reset the per-project
state (`setCurrentProject`), run the bundle step when `--bundle` is set,
run the binding step when `--bindings` is set, then `save`. -/
def Prepare.processProject (ext : Externals) (cfg : GraphQLConfig)
    (argv : Arguments) (name : String) (proj : GraphQLProjectConfig) :
    M Unit := fun s =>
  let ps : PrepareState :=
    { project := proj, projectName := name, bundleExtensionConfig := none }
  match
    (if argv.bundle then Prepare.bundle ext argv ps s else (Except.ok ps, s)) with
  | (Except.error e, s) => (Except.error e, s)
  | (Except.ok ps, s) =>
    match
      (if argv.bindings then Prepare.bindings ext argv ps s else (Except.ok ps, s)) with
    | (Except.error e, s) => (Except.error e, s)
    | (Except.ok ps, s) =>
      match Prepare.save cfg argv ps s with
      | (Except.error e, s) => (Except.error e, s)
      | (Except.ok _, s) => (Except.ok (), s)

/-- The project loop of `Prepare.handle`, in the order the configuration
store delivers the projects; the first thrown error aborts the run. -/
def Prepare.handleProjects (ext : Externals) (cfg : GraphQLConfig)
    (argv : Arguments) : List (String × GraphQLProjectConfig) → M Unit
  | [] => fun s => (Except.ok (), s)
  | (name, proj) :: rest => fun s =>
    match Prepare.processProject ext cfg argv name proj s with
    | (Except.error e, s) => (Except.error e, s)
    | (Except.ok _, s) => Prepare.handleProjects ext cfg argv rest s

/-- Embedding of `Prepare.handle`: resolve the target projects and process
each one in turn. -/
def Prepare.handle (ext : Externals) (cfg : GraphQLConfig)
    (argv : Arguments) : M Unit := fun s =>
  match Prepare.getProjectConfig cfg argv s with
  | (Except.error e, s) => (Except.error e, s)
  | (Except.ok projects, s) => Prepare.handleProjects ext cfg argv projects s

/-- Events that produce output or invoke the producing collaborators:
output-file writes and calls of the flattener or generator. -/
def isOutputEffect : Event → Bool
  | Event.writeFile _ _ => true
  | Event.flatten _ => true
  | Event.generate _ => true
  | _ => false

/-- How many output-producing events a trace holds. -/
def effectCount (t : List Event) : Nat :=
  t.countP (fun e => isOutputEffect e)

/-- Configuration-store writes. -/
def isStoreSave : Event → Bool
  | Event.storeSave _ _ => true
  | _ => false

/-- How many configuration-store writes a state's trace holds. -/
def storeWrites (s : St) : Nat :=
  s.trace.countP (fun e => isStoreSave e)

theorem strEndsWith_iff (g suffix : String) :
    strEndsWith g suffix = true ↔ ∃ p : String, g = p ++ suffix := by
  constructor
  · intro h
    obtain ⟨t, ht⟩ := of_decide_eq_true h
    refine ⟨String.mk t, ?_⟩
    apply String.ext
    rw [String.data_append]
    exact ht.symm
  · rintro ⟨p, rfl⟩
    apply decide_eq_true
    exact ⟨p.data, (String.data_append p suffix).symm⟩

/-- C1 input: a project whose configuration carries the bundle output
exactly as this plugin persists it — a string under
`extensions.prepare-bundle` (see `processBundle` and
`determineBundleOutputPath`) — plus a declared base schema path. -/
def c1config : JSON :=
  JSON.obj [("extensions", JSON.obj [("prepare-bundle", JSON.str "out/app.graphql")])]

/-- C1 per-project state. -/
def c1ps : PrepareState :=
  { project := { schemaPath := some "schema.graphql", config := c1config },
    projectName := "app",
    bundleExtensionConfig := none }

/-- C1 filesystem: both the base schema and the persisted bundle output
exist on disk. -/
def c1st : St :=
  { fs := { files := [("schema.graphql", "BASE"), ("out/app.graphql", "BUNDLED")],
            dirs := ["out"], failDirs := [] },
    trace := [] }

/-- C1: a prior run persisted its bundle output (a string under
`extensions.prepare-bundle`, the exact fragment shape `processBundle`
returns), the file exists on disk, and the binding step runs without a
fresh bundle — yet `determineInputSchema` resolves to the base
`schemaPath`, because it looks the persisted setting up under
`extensions.prepare-bundle.output`, a path that is never populated.  This
exhibits the divergence from the documented precedence order. -/
theorem c1_persisted_bundle_output_ignored :
    lodashGet c1config ["extensions", "prepare-bundle"]
        = some (JSON.str "out/app.graphql") ∧
    (assocLookup c1st.fs.files "out/app.graphql").isSome = true ∧
    (determineInputSchema c1ps none c1st).1 = Except.ok "schema.graphql" :=
  ⟨rfl, rfl, rfl⟩

/-- C4: for every resolved generator name, the binding output extension is
`ts` exactly when the generator name ends in the suffix `ts` (that is,
when some prefix `p` satisfies `g = p ++ "ts"`), and `js` otherwise. -/
theorem c4_binding_extension (g : String) :
    ((∃ p : String, g = p ++ "ts") → bindingExtension g = "ts") ∧
    ((¬ ∃ p : String, g = p ++ "ts") → bindingExtension g = "js") := by
  constructor
  · intro h
    have he : strEndsWith g "ts" = true := (strEndsWith_iff g "ts").mpr h
    simp [bindingExtension, he]
  · intro h
    have he : strEndsWith g "ts" = false := by
      cases hv : strEndsWith g "ts"
      · rfl
      · exact absurd ((strEndsWith_iff g "ts").mp hv) h
    simp [bindingExtension, he]

/-- C4 witness: a typed-source generator name yields `ts` and an untyped
one yields `js`. -/
theorem c4_binding_extension_witness :
    bindingExtension ("binding-" ++ "ts") = "ts" ∧ bindingExtension "binding-js" = "js" := by
  refine ⟨(c4_binding_extension ("binding-" ++ "ts")).1 ⟨"binding-", rfl⟩,
    (c4_binding_extension "binding-js").2 ?_⟩
  intro h
  have : strEndsWith "binding-js" "ts" = true := (strEndsWith_iff "binding-js" "ts").mpr h
  simp [strEndsWith] at this
  exact absurd this (by decide)

/-- C2: with no usable `--generator` run argument and no persisted
generator setting (neither the deprecated `binding.generator` nor
`prepare-binding.generator`), `processBindings` throws the
"Generator cannot be determined" error and returns the input state
unchanged — no directory creation, file read or file write has happened,
since the trace and filesystem are exactly as before.  When a generator
run argument is given, `determineGenerator` returns it unchanged no matter
what the configuration holds. -/
theorem c2_generator_resolution (ext : Externals) (argv : Arguments)
    (ps : PrepareState) (sp : Option String) (s : St) :
    (argv.generator = none →
      lodashHas ps.project.config ["extensions", "binding", "generator"] = false →
      lodashHas ps.project.config ["extensions", "prepare-binding", "generator"] = false →
      processBindings ext argv ps sp s =
        (Except.error
          "Generator cannot be determined. No existing configuration found and no generator parameter specified.",
         s)) ∧
    (∀ g, argv.generator = some g → g ≠ "" →
      determineGenerator argv ps s = (Except.ok g, s)) := by
  constructor
  · intro hg h1 h2
    simp [processBindings, determineGenerator, hg, h1, h2, truthyS]
  · intro g hg hne
    simp [determineGenerator, hg, truthyS, hne]

/-- C2 witness configuration: no generator anywhere. -/
def c2ps : PrepareState :=
  { project := { schemaPath := some "schema.graphql", config := JSON.obj [] },
    projectName := "app",
    bundleExtensionConfig := none }

/-- C2 witness arguments: bindings requested, no generator. -/
def c2argv : Arguments :=
  { project := ProjectArg.single "app", output := some "out", save := false,
    bundle := false, bindings := true, generator := none, verbose := false }

/-- C2 witness externals. -/
def c2ext : Externals :=
  { flatten := fun p => p, generate := fun c _ => c }

/-- C2 witness state. -/
def c2st : St :=
  { fs := { files := [("schema.graphql", "BASE")], dirs := [], failDirs := [] },
    trace := [] }

/-- C2 witness: at a concrete project with no generator configured, the
binding step fails with the exact error and an untouched state; with a
concrete override, the override wins. -/
theorem c2_generator_resolution_witness :
    processBindings c2ext c2argv c2ps none c2st =
      (Except.error
        "Generator cannot be determined. No existing configuration found and no generator parameter specified.",
       c2st) ∧
    determineGenerator { c2argv with generator := some "binding-ts" } c2ps c2st =
      (Except.ok "binding-ts", c2st) :=
  ⟨(c2_generator_resolution c2ext c2argv c2ps none c2st).1 rfl rfl rfl,
   (c2_generator_resolution c2ext { c2argv with generator := some "binding-ts" } c2ps none c2st).2
     "binding-ts" rfl (by decide)⟩

/-- C10: with no run-argument override, resolution prefers the deprecated
extension keys: `determineGenerator` returns the value stored under
`binding.generator`, and `determineBindingOutputPath` returns the value
stored under `binding.output`, regardless of what the newer
`prepare-binding` keys hold. -/
theorem c10_deprecated_key_precedence (argv : Arguments) (ps : PrepareState)
    (s : St) :
    (argv.generator = none →
      ∀ gv, lodashGet ps.project.config ["extensions", "binding", "generator"]
          = some (JSON.str gv) →
        (determineGenerator argv ps s).1 = Except.ok gv) ∧
    (argv.output = none →
      ∀ ov, lodashGet ps.project.config ["extensions", "binding", "output"]
          = some (JSON.str ov) →
        ∀ x, pathDirname ov ∉ s.fs.failDirs →
          (determineBindingOutputPath argv ps x s).1 = Except.ok ov) := by
  constructor
  · intro hg gv hget
    simp [determineGenerator, truthyS, hg, lodashHas, hget, jsonToStr]
  · intro ho ov hget x hdir
    cases hsv : argv.save <;>
      simp [determineBindingOutputPath, resolveBindingOutputPath, truthyS, ho, lodashHas, hget, jsonToStr,
        ensureDirSyncSt, emitSt, spinnerWarnSt, hsv, hdir]

/-- C10 witness configuration: both the deprecated and the new binding
keys are present with different values. -/
def c10config : JSON :=
  JSON.obj [("extensions", JSON.obj
    [("binding", JSON.obj
        [("generator", JSON.str "oldgen"), ("output", JSON.str "old/out.js")]),
     ("prepare-binding", JSON.obj
        [("generator", JSON.str "newgen"), ("output", JSON.str "new/out.js")])])]

/-- C10 witness per-project state. -/
def c10ps : PrepareState :=
  { project := { schemaPath := some "schema.graphql", config := c10config },
    projectName := "app",
    bundleExtensionConfig := none }

/-- C10 witness arguments: no overrides. -/
def c10argv : Arguments :=
  { project := ProjectArg.noProject, output := none, save := false,
    bundle := false, bindings := true, generator := none, verbose := false }

/-- C10 witness state. -/
def c10st : St :=
  { fs := { files := [], dirs := [], failDirs := [] }, trace := [] }

/-- C10 witness: with both keys present, the deprecated values win. -/
theorem c10_deprecated_key_precedence_witness :
    (determineGenerator c10argv c10ps c10st).1 = Except.ok "oldgen" ∧
    (determineBindingOutputPath c10argv c10ps "js" c10st).1 = Except.ok "old/out.js" :=
  ⟨(c10_deprecated_key_precedence c10argv c10ps c10st).1 rfl "oldgen" rfl,
   (c10_deprecated_key_precedence c10argv c10ps c10st).2 rfl "old/out.js" rfl "js"
     (by decide)⟩

/-- C6 externals (any will do: the step never runs in the counterexample). -/
def c6ext : Externals :=
  { flatten := fun p => p, generate := fun c _ => c }

/-- C6 arguments: `--bundle` set, no `--project`, no `--verbose`. -/
def c6argv : Arguments :=
  { project := ProjectArg.noProject, output := none, save := false,
    bundle := true, bindings := false, generator := none, verbose := false }

/-- C6 per-project state: a project whose configuration does not mark
bundling as configured. -/
def c6ps : PrepareState :=
  { project := { schemaPath := some "schema.graphql", config := JSON.obj [] },
    projectName := "app",
    bundleExtensionConfig := none }

/-- C6 state with an empty trace. -/
def c6st : St :=
  { fs := { files := [("schema.graphql", "BASE")], dirs := [], failDirs := [] },
    trace := [] }

/-- C6 counterexample: the bundle flag is set, no project subset was
requested and the configuration does not mark bundling as configured, so
the step is skipped — but the trace stays empty: no spinner `info` event
reports the skip, contradicting the claim that a skipped step is always
reported as skipped (the report only happens under `--verbose`). -/
theorem c6_skip_not_reported :
    Prepare.bundle c6ext c6argv c6ps c6st = (Except.ok c6ps, c6st) ∧
    c6st.trace = [] :=
  ⟨rfl, rfl⟩

/-- C6 amended: the gate of each step is exactly "a project subset was
requested, or the configuration marks the step as configured (new or
deprecated key)"; when the gate passes the step body runs, and when it
fails the step is skipped, the skip being reported only under
`--verbose`; with both step flags unset (and no `--save`) a project is
processed without any effect. -/
theorem c6_gating_amended (ext : Externals) (cfg : GraphQLConfig)
    (argv : Arguments) (ps : PrepareState) (s : St) (name : String)
    (proj : GraphQLProjectConfig) :
    (gateBundle argv ps =
      (argv.project.truthy ||
        lodashHas ps.project.config ["extensions", "prepare-bundle"] ||
        lodashHas ps.project.config ["extensions", "bundle"])) ∧
    (gateBindings argv ps =
      (argv.project.truthy ||
        lodashHas ps.project.config ["extensions", "prepare-binding"] ||
        lodashHas ps.project.config ["extensions", "binding"])) ∧
    (gateBundle argv ps = true →
      Prepare.bundle ext argv ps s = Prepare.bundleRun ext argv ps s) ∧
    (gateBundle argv ps = false → argv.verbose = true →
      Prepare.bundle ext argv ps s =
        (Except.ok ps,
          spinnerInfoSt s
            ("Bundling not configured for project " ++ chalkGreen ps.projectName ++
              ". Skipping"))) ∧
    (gateBundle argv ps = false → argv.verbose = false →
      Prepare.bundle ext argv ps s = (Except.ok ps, s)) ∧
    (gateBindings argv ps = true →
      Prepare.bindings ext argv ps s = Prepare.bindingsRun ext argv ps s) ∧
    (gateBindings argv ps = false → argv.verbose = true →
      Prepare.bindings ext argv ps s =
        (Except.ok ps,
          spinnerInfoSt s
            ("Binding not configured for project " ++ chalkGreen ps.projectName ++
              ". Skipping"))) ∧
    (gateBindings argv ps = false → argv.verbose = false →
      Prepare.bindings ext argv ps s = (Except.ok ps, s)) ∧
    (argv.bundle = false → argv.bindings = false → argv.save = false →
      Prepare.processProject ext cfg argv name proj s = (Except.ok (), s)) := by
  refine ⟨?_, ?_, ?_, ?_, ?_, ?_, ?_, ?_, ?_⟩
  · cases h : argv.project.truthy <;> simp [gateBundle, h]
  · cases h : argv.project.truthy <;> simp [gateBindings, h]
  · intro h; simp [Prepare.bundle, h]
  · intro h hv; simp [Prepare.bundle, h, hv]
  · intro h hv; simp [Prepare.bundle, h, hv]
  · intro h; simp [Prepare.bindings, h]
  · intro h hv; simp [Prepare.bindings, h, hv]
  · intro h hv; simp [Prepare.bindings, h, hv]
  · intro hb hbd hsv
    simp [Prepare.processProject, hb, hbd, Prepare.save, hsv]

/-- C6 amended witness: at the concrete skipped-project input the gate is
false and the step does nothing, while with `--verbose` one skip report is
emitted. -/
theorem c6_gating_amended_witness :
    Prepare.bundle c6ext c6argv c6ps c6st = (Except.ok c6ps, c6st) ∧
    Prepare.bundle c6ext { c6argv with verbose := true } c6ps c6st =
      (Except.ok c6ps,
        spinnerInfoSt c6st
          ("Bundling not configured for project " ++ chalkGreen "app" ++ ". Skipping")) :=
  ⟨(c6_gating_amended c6ext ⟨[], ""⟩ c6argv c6ps c6st "app" c6ps.project).2.2.2.2.1
      (by rfl) (by rfl),
   (c6_gating_amended c6ext ⟨[], ""⟩ { c6argv with verbose := true } c6ps c6st "app"
      c6ps.project).2.2.2.1 (by rfl) (by rfl)⟩

/-- C8 configuration: a persisted bundle-output setting under the
deprecated key `extensions.bundle.output` — the very key
`determineInputSchema` itself consults as a bundle-output source. -/
def c8config : JSON :=
  JSON.obj [("extensions", JSON.obj
    [("bundle", JSON.obj [("output", JSON.str "lib/schema.graphql")])])]

/-- C8 per-project state. -/
def c8ps : PrepareState :=
  { project := { schemaPath := some "schema.graphql", config := c8config },
    projectName := "app",
    bundleExtensionConfig := none }

/-- C8 filesystem: the configured bundle output file does not exist. -/
def c8st : St :=
  { fs := { files := [], dirs := [], failDirs := [] }, trace := [] }

/-- C8 counterexample: a persisted bundle-output setting exists
(`extensions.bundle.output`, which `determineInputSchema` itself reads as
the persisted bundle output), the resolved file is missing, yet the error
message carries no "Did you run bundle first?" suggestion — the suggestion
is keyed to `extensions.prepare-bundle.output` alone, refuting "exactly
when a persisted bundle-output setting exists". -/
theorem c8_suggestion_missing :
    lodashHas c8config ["extensions", "bundle", "output"] = true ∧
    (determineInputSchema c8ps none c8st).1 =
      Except.error "Schema \x27lib/schema.graphql\x27 not found." :=
  ⟨rfl, rfl⟩

/-- C8 amended: whenever the resolved input schema file does not exist the
step fails with the "Schema ... not found." error, and the message carries
the "Did you run bundle first?" suggestion exactly when the
`extensions.prepare-bundle.output` key is present — not for the deprecated
`extensions.bundle.output` key nor for the string-valued `prepare-bundle`
setting the plugin itself persists.  Cases: a schema path handed over from
bundling in the same run; a configured `prepare-bundle.output`; a
configured `bundle.output` with no `prepare-bundle.output`; and the
fall-back to the project's base `schemaPath` when neither bundle key is
configured. -/
theorem c8_schema_not_found_amended (ps : PrepareState) (s : St) :
    (∀ p, p ≠ "" → (assocLookup s.fs.files p).isSome = false →
      determineInputSchema ps (some p) s =
        (Except.error ("Schema \x27" ++ p ++ "\x27 not found." ++
          (if lodashHas ps.project.config ["extensions", "prepare-bundle", "output"]
            then " Did you run bundle first?" else "")),
         emitSt s (Event.existsCheck p))) ∧
    (∀ p, lodashGet ps.project.config ["extensions", "prepare-bundle", "output"]
        = some (JSON.str p) →
      (assocLookup s.fs.files p).isSome = false →
      determineInputSchema ps none s =
        (Except.error ("Schema \x27" ++ p ++ "\x27 not found." ++ " Did you run bundle first?"),
         emitSt s (Event.existsCheck p))) ∧
    (∀ p, lodashHas ps.project.config ["extensions", "prepare-bundle", "output"] = false →
      lodashGet ps.project.config ["extensions", "bundle", "output"]
        = some (JSON.str p) →
      (assocLookup s.fs.files p).isSome = false →
      determineInputSchema ps none s =
        (Except.error ("Schema \x27" ++ p ++ "\x27 not found."),
         emitSt s (Event.existsCheck p))) ∧
    (∀ p, lodashHas ps.project.config ["extensions", "prepare-bundle", "output"] = false →
      lodashHas ps.project.config ["extensions", "bundle", "output"] = false →
      ps.project.schemaPath = some p → p ≠ "" →
      (assocLookup s.fs.files p).isSome = false →
      determineInputSchema ps none s =
        (Except.error ("Schema \x27" ++ p ++ "\x27 not found."),
         emitSt s (Event.existsCheck p))) := by
  refine ⟨?_, ?_, ?_, ?_⟩
  · intro p hne hmiss
    simp [determineInputSchema, truthyS, hne, existsSyncSt, hmiss]
  · intro p hget hmiss
    simp [determineInputSchema, truthyS, lodashHas, hget, jsonToStr,
      existsSyncSt, hmiss]
  · intro p hno hget hmiss
    have hno2 : (lodashGet ps.project.config
        ["extensions", "prepare-bundle", "output"]).isSome = false := hno
    simp [determineInputSchema, truthyS, lodashHas, hget, jsonToStr,
      existsSyncSt, hmiss, hno2]
  · intro p hno1 hno2 hsp hne hmiss
    have hno1b : (lodashGet ps.project.config
        ["extensions", "prepare-bundle", "output"]).isSome = false := hno1
    have hno2b : (lodashGet ps.project.config
        ["extensions", "bundle", "output"]).isSome = false := hno2
    simp [determineInputSchema, truthyS, lodashHas, hsp, hne,
      existsSyncSt, hmiss, hno1b, hno2b]

/-- C8 amended witness: a configured `prepare-bundle.output` whose file is
missing produces the error with the suggestion appended. -/
theorem c8_schema_not_found_amended_witness :
    determineInputSchema
      { project :=
          { schemaPath := none,
            config := JSON.obj [("extensions", JSON.obj
              [("prepare-bundle", JSON.obj [("output", JSON.str "lib/s.graphql")])])] },
        projectName := "app", bundleExtensionConfig := none } none c8st =
      (Except.error ("Schema \x27lib/s.graphql\x27 not found." ++ " Did you run bundle first?"),
       emitSt c8st (Event.existsCheck "lib/s.graphql")) :=
  (c8_schema_not_found_amended
    { project :=
        { schemaPath := none,
          config := JSON.obj [("extensions", JSON.obj
            [("prepare-bundle", JSON.obj [("output", JSON.str "lib/s.graphql")])])] },
      projectName := "app", bundleExtensionConfig := none } c8st).2.1
    "lib/s.graphql" rfl rfl

/-- C3 scenario externals: an abstract flattener whose output records the
schema it was applied to. -/
def c3ext : Externals :=
  { flatten := fun p => "FLAT " ++ p, generate := fun c g => g ++ " " ++ c }

/-- C3 scenario host configuration: projects A and B. -/
def c3cfg : GraphQLConfig :=
  { projects :=
      [("A", { schemaPath := some "a/schema.graphql", config := JSON.obj [] }),
       ("B", { schemaPath := some "b/schema.graphql", config := JSON.obj [] })],
    configPath := ".graphqlconfig.yml" }

/-- C3 scenario arguments: `--project A --project B --output ./out --bundle`. -/
def c3argv : Arguments :=
  { project := ProjectArg.multi ["A", "B"], output := some "./out", save := false,
    bundle := true, bindings := false, generator := none, verbose := false }

/-- C3 scenario initial state: empty filesystem. -/
def c3st : St :=
  { fs := { files := [], dirs := [], failDirs := [] }, trace := [] }

/-- C3: output paths resolve by the fixed precedence — with `--output` the
result is the folder joined with `<projectName>.<extension>`; without it, a
persisted setting (deprecated key first) is returned as stored; with
neither, resolution fails.  Consequently the concrete run
`--project A --project B --output ./out --bundle` succeeds and produces
exactly the files `./out/A.graphql` and `./out/B.graphql` (Node's
`path.join` normalises `./out/X` to `out/X`), each holding its project's
flattened schema. -/
theorem c3_output_path_resolution (argv : Arguments) (ps : PrepareState)
    (s : St) :
    (∀ dir p s2, argv.output = some dir → dir ≠ "" →
      determineBundleOutputPath argv ps s = (Except.ok p, s2) →
      p = pathJoin dir (ps.projectName ++ ".graphql")) ∧
    (∀ dir x p s2, argv.output = some dir → dir ≠ "" →
      determineBindingOutputPath argv ps x s = (Except.ok p, s2) →
      p = pathJoin dir (ps.projectName ++ "." ++ x)) ∧
    (argv.output = none →
      ∀ v, lodashGet ps.project.config ["extensions", "bundle"] = some (JSON.str v) →
      ∀ p s2, determineBundleOutputPath argv ps s = (Except.ok p, s2) → p = v) ∧
    (argv.output = none →
      lodashHas ps.project.config ["extensions", "bundle"] = false →
      ∀ v, lodashGet ps.project.config ["extensions", "prepare-bundle"] = some (JSON.str v) →
      ∀ p s2, determineBundleOutputPath argv ps s = (Except.ok p, s2) → p = v) ∧
    (argv.output = none →
      lodashHas ps.project.config ["extensions", "bundle"] = false →
      lodashHas ps.project.config ["extensions", "prepare-bundle"] = false →
      determineBundleOutputPath argv ps s =
        (Except.error
          "Output path cannot be determined. No existing configuration found and no output parameter specified.",
         s)) ∧
    (argv.output = none →
      ∀ v, lodashGet ps.project.config ["extensions", "binding", "output"] = some (JSON.str v) →
      ∀ x p s2, determineBindingOutputPath argv ps x s = (Except.ok p, s2) → p = v) ∧
    (argv.output = none →
      lodashHas ps.project.config ["extensions", "binding", "output"] = false →
      ∀ v, lodashGet ps.project.config ["extensions", "prepare-binding", "output"] = some (JSON.str v) →
      ∀ x p s2, determineBindingOutputPath argv ps x s = (Except.ok p, s2) → p = v) ∧
    (argv.output = none →
      lodashHas ps.project.config ["extensions", "binding", "output"] = false →
      lodashHas ps.project.config ["extensions", "prepare-binding", "output"] = false →
      ∀ x, determineBindingOutputPath argv ps x s =
        (Except.error
          "Output path cannot be determined. No existing configuration found and no output parameter specified.",
         s)) ∧
    ((Prepare.handle c3ext c3cfg c3argv c3st).1 = Except.ok () ∧
      (Prepare.handle c3ext c3cfg c3argv c3st).2.fs.files =
        [("out/A.graphql", "FLAT a/schema.graphql"),
         ("out/B.graphql", "FLAT b/schema.graphql")]) := by
  refine ⟨?_, ?_, ?_, ?_, ?_, ?_, ?_, ?_, rfl, rfl⟩
  · intro dir p s2 ho hne h
    simp [determineBundleOutputPath, resolveBundleOutputPath, ho, truthyS, hne] at h
    split at h <;> simp_all
  · intro dir x p s2 ho hne h
    simp [determineBindingOutputPath, resolveBindingOutputPath, ho, truthyS, hne] at h
    split at h <;> simp_all
  · intro ho v hget p s2 h
    cases hsv : argv.save <;>
      simp [determineBundleOutputPath, resolveBundleOutputPath, ho, truthyS, lodashHas, hget,
        jsonToStr, hsv] at h <;>
      split at h <;> simp_all
  · intro ho hno v hget p s2 h
    have hno2 : (lodashGet ps.project.config ["extensions", "bundle"]).isSome = false := hno
    cases hsv : argv.save <;>
      simp [determineBundleOutputPath, resolveBundleOutputPath, ho, truthyS, lodashHas, hget, hno2,
        jsonToStr, hsv] at h <;>
      split at h <;> simp_all
  · intro ho h1 h2
    have h12 : (lodashGet ps.project.config ["extensions", "bundle"]).isSome = false := h1
    have h22 : (lodashGet ps.project.config ["extensions", "prepare-bundle"]).isSome = false := h2
    simp [determineBundleOutputPath, resolveBundleOutputPath, ho, truthyS, lodashHas, h12, h22]
  · intro ho v hget x p s2 h
    cases hsv : argv.save <;>
      simp [determineBindingOutputPath, resolveBindingOutputPath, ho, truthyS, lodashHas, hget,
        jsonToStr, hsv] at h <;>
      split at h <;> simp_all
  · intro ho hno v hget x p s2 h
    have hno2 : (lodashGet ps.project.config ["extensions", "binding", "output"]).isSome = false := hno
    cases hsv : argv.save <;>
      simp [determineBindingOutputPath, resolveBindingOutputPath, ho, truthyS, lodashHas, hget, hno2,
        jsonToStr, hsv] at h <;>
      split at h <;> simp_all
  · intro ho h1 h2 x
    have h12 : (lodashGet ps.project.config ["extensions", "binding", "output"]).isSome = false := h1
    have h22 : (lodashGet ps.project.config ["extensions", "prepare-binding", "output"]).isSome = false := h2
    simp [determineBindingOutputPath, resolveBindingOutputPath, ho, truthyS, lodashHas, h12, h22]

/-- C3 witness per-project state for project A. -/
def c3psA : PrepareState :=
  { project := { schemaPath := some "a/schema.graphql", config := JSON.obj [] },
    projectName := "A",
    bundleExtensionConfig := none }

/-- C3 witness: at the concrete scenario input, the resolved bundle output
path for project A is the `--output` folder joined with `A.graphql`. -/
theorem c3_output_path_resolution_witness :
    "out/A.graphql" = pathJoin "./out" ("A" ++ ".graphql") :=
  (c3_output_path_resolution c3argv c3psA c3st).1 "./out" "out/A.graphql"
    { fs := { files := [], dirs := ["out"], failDirs := [] },
      trace := [Event.ensureDir "out"] }
    rfl (by decide) rfl


theorem ensureDirSyncSt_ok_mem {s s2 : St} {d : String} {a : Unit}
    (h : ensureDirSyncSt s d = (Except.ok a, s2)) : d ∈ s2.fs.dirs := by
  simp only [ensureDirSyncSt, emitSt] at h
  split at h
  · cases h
  · cases h
    simp only []
    split
    next hc => simpa using hc
    next => simp

theorem ensureDirSyncSt_preserves (s : St) (d : String) :
    ((ensureDirSyncSt s d).2).fs.files = s.fs.files ∧
    effectCount ((ensureDirSyncSt s d).2).trace = effectCount s.trace ∧
    storeWrites (ensureDirSyncSt s d).2 = storeWrites s := by
  simp only [ensureDirSyncSt, emitSt]
  split <;>
    simp [effectCount, storeWrites, isOutputEffect, isStoreSave,
      List.countP_append, List.countP_cons, List.countP_nil]

theorem resolveBundleOutputPath_preserves (argv : Arguments)
    (ps : PrepareState) (s : St) :
    ((resolveBundleOutputPath argv ps s).2).fs.files = s.fs.files ∧
    effectCount ((resolveBundleOutputPath argv ps s).2).trace = effectCount s.trace ∧
    storeWrites (resolveBundleOutputPath argv ps s).2 = storeWrites s := by
  unfold resolveBundleOutputPath
  split
  · exact ⟨rfl, rfl, rfl⟩
  · split
    · cases hsv : argv.save <;>
        simp [hsv, spinnerWarnSt, emitSt, effectCount, storeWrites,
          isOutputEffect, isStoreSave, List.countP_append, List.countP_cons,
          List.countP_nil]
    · split
      · exact ⟨rfl, rfl, rfl⟩
      · exact ⟨rfl, rfl, rfl⟩

theorem resolveBindingOutputPath_preserves (argv : Arguments)
    (ps : PrepareState) (x : String) (s : St) :
    ((resolveBindingOutputPath argv ps x s).2).fs.files = s.fs.files ∧
    effectCount ((resolveBindingOutputPath argv ps x s).2).trace = effectCount s.trace ∧
    storeWrites (resolveBindingOutputPath argv ps x s).2 = storeWrites s := by
  unfold resolveBindingOutputPath
  split
  · exact ⟨rfl, rfl, rfl⟩
  · split
    · cases hsv : argv.save <;>
        simp [hsv, spinnerWarnSt, emitSt, effectCount, storeWrites,
          isOutputEffect, isStoreSave, List.countP_append, List.countP_cons,
          List.countP_nil]
    · split
      · exact ⟨rfl, rfl, rfl⟩
      · exact ⟨rfl, rfl, rfl⟩

theorem determineBundleOutputPath_preserves (argv : Arguments)
    (ps : PrepareState) (s : St) :
    ((determineBundleOutputPath argv ps s).2).fs.files = s.fs.files ∧
    effectCount ((determineBundleOutputPath argv ps s).2).trace = effectCount s.trace ∧
    storeWrites (determineBundleOutputPath argv ps s).2 = storeWrites s := by
  have hRp := resolveBundleOutputPath_preserves argv ps s
  rcases hR : resolveBundleOutputPath argv ps s with ⟨r, s1⟩
  rw [hR] at hRp
  unfold determineBundleOutputPath
  rw [hR]
  cases r with
  | error e => exact hRp
  | ok out =>
    dsimp only
    have hEp := ensureDirSyncSt_preserves s1 (pathDirname out)
    rcases hE : ensureDirSyncSt s1 (pathDirname out) with ⟨r2, s2⟩
    rw [hE] at hEp
    cases r2 <;>
      exact ⟨hEp.1.trans hRp.1, hEp.2.1.trans hRp.2.1, hEp.2.2.trans hRp.2.2⟩

theorem determineBindingOutputPath_preserves (argv : Arguments)
    (ps : PrepareState) (x : String) (s : St) :
    ((determineBindingOutputPath argv ps x s).2).fs.files = s.fs.files ∧
    effectCount ((determineBindingOutputPath argv ps x s).2).trace = effectCount s.trace ∧
    storeWrites (determineBindingOutputPath argv ps x s).2 = storeWrites s := by
  have hRp := resolveBindingOutputPath_preserves argv ps x s
  rcases hR : resolveBindingOutputPath argv ps x s with ⟨r, s1⟩
  rw [hR] at hRp
  unfold determineBindingOutputPath
  rw [hR]
  cases r with
  | error e => exact hRp
  | ok out =>
    dsimp only
    have hEp := ensureDirSyncSt_preserves s1 (pathDirname out)
    rcases hE : ensureDirSyncSt s1 (pathDirname out) with ⟨r2, s2⟩
    rw [hE] at hEp
    cases r2 <;>
      exact ⟨hEp.1.trans hRp.1, hEp.2.1.trans hRp.2.1, hEp.2.2.trans hRp.2.2⟩

theorem determineGenerator_preserves (argv : Arguments)
    (ps : PrepareState) (s : St) :
    ((determineGenerator argv ps s).2).fs.files = s.fs.files ∧
    effectCount ((determineGenerator argv ps s).2).trace = effectCount s.trace ∧
    storeWrites (determineGenerator argv ps s).2 = storeWrites s := by
  unfold determineGenerator
  split
  · exact ⟨rfl, rfl, rfl⟩
  · split
    · cases hsv : argv.save <;>
        simp [hsv, spinnerWarnSt, emitSt, effectCount, storeWrites,
          isOutputEffect, isStoreSave, List.countP_append, List.countP_cons,
          List.countP_nil]
    · split
      · exact ⟨rfl, rfl, rfl⟩
      · exact ⟨rfl, rfl, rfl⟩

/-- C5: whenever an output-path resolution returns a path, the
destination directory (its `path.dirname`) exists in the returned state —
`ensureDirSync` ran before the path was returned; and whenever the
resolution fails (including an uncreatable directory), the enclosing step
returns that very failure with the file map unchanged and no flattener or
generator invocation and no file write added to the trace. -/
theorem c5_output_dir_ensured (ext : Externals) (argv : Arguments)
    (ps : PrepareState) (s : St) :
    (∀ p s2, determineBundleOutputPath argv ps s = (Except.ok p, s2) →
      pathDirname p ∈ s2.fs.dirs) ∧
    (∀ x p s2, determineBindingOutputPath argv ps x s = (Except.ok p, s2) →
      pathDirname p ∈ s2.fs.dirs) ∧
    (∀ msg s2, determineBundleOutputPath argv ps s = (Except.error msg, s2) →
      processBundle ext argv ps s = (Except.error msg, s2) ∧
      s2.fs.files = s.fs.files ∧ effectCount s2.trace = effectCount s.trace) ∧
    (∀ sp g s1 msg s2, determineGenerator argv ps s = (Except.ok g, s1) →
      determineBindingOutputPath argv ps (bindingExtension g) s1 = (Except.error msg, s2) →
      processBindings ext argv ps sp s = (Except.error msg, s2) ∧
      s2.fs.files = s.fs.files ∧ effectCount s2.trace = effectCount s.trace) := by
  refine ⟨?_, ?_, ?_, ?_⟩
  · intro p s2 h
    unfold determineBundleOutputPath at h
    rcases hR : resolveBundleOutputPath argv ps s with ⟨r, s1⟩
    rw [hR] at h
    cases r with
    | error e => simp at h
    | ok out =>
      dsimp only at h
      rcases hE : ensureDirSyncSt s1 (pathDirname out) with ⟨r2, s3⟩
      rw [hE] at h
      cases r2 with
      | error e2 => simp at h
      | ok a =>
        simp at h
        obtain ⟨h1, h2⟩ := h
        subst h1
        subst h2
        exact ensureDirSyncSt_ok_mem hE
  · intro x p s2 h
    unfold determineBindingOutputPath at h
    rcases hR : resolveBindingOutputPath argv ps x s with ⟨r, s1⟩
    rw [hR] at h
    cases r with
    | error e => simp at h
    | ok out =>
      dsimp only at h
      rcases hE : ensureDirSyncSt s1 (pathDirname out) with ⟨r2, s3⟩
      rw [hE] at h
      cases r2 with
      | error e2 => simp at h
      | ok a =>
        simp at h
        obtain ⟨h1, h2⟩ := h
        subst h1
        subst h2
        exact ensureDirSyncSt_ok_mem hE
  · intro msg s2 h
    have hp := determineBundleOutputPath_preserves argv ps s
    rw [h] at hp
    refine ⟨?_, hp.1, hp.2.1⟩
    unfold processBundle
    rw [h]
  · intro sp g s1 msg s2 hg hb
    have h1 := determineGenerator_preserves argv ps s
    rw [hg] at h1
    have h2 := determineBindingOutputPath_preserves argv ps (bindingExtension g) s1
    rw [hb] at h2
    refine ⟨?_, h2.1.trans h1.1, h2.2.1.trans h1.2.1⟩
    unfold processBindings
    rw [hg]
    dsimp only
    rw [hb]

/-- C5 witness externals. -/
def c5ext : Externals :=
  { flatten := fun p => "FLAT " ++ p, generate := fun c g => g ++ " " ++ c }

/-- C5 witness arguments: `--output out --bundle`. -/
def c5argv : Arguments :=
  { project := ProjectArg.single "app", output := some "out", save := false,
    bundle := true, bindings := false, generator := none, verbose := false }

/-- C5 witness per-project state. -/
def c5ps : PrepareState :=
  { project := { schemaPath := some "schema.graphql", config := JSON.obj [] },
    projectName := "app",
    bundleExtensionConfig := none }

/-- C5 witness state: the destination directory `out` cannot be created. -/
def c5st : St :=
  { fs := { files := [("schema.graphql", "BASE")], dirs := [], failDirs := ["out"] },
    trace := [] }

/-- C5 witness: with `out` uncreatable, the bundle step fails with the
directory error, the file map is untouched and no output-producing event
was traced. -/
theorem c5_output_dir_ensured_witness :
    processBundle c5ext c5argv c5ps c5st =
      (Except.error "EACCES: cannot create directory out",
        { fs := c5st.fs, trace := [Event.ensureDir "out"] }) ∧
    ({ fs := c5st.fs, trace := [Event.ensureDir "out"] } : St).fs.files = c5st.fs.files ∧
    effectCount ({ fs := c5st.fs, trace := [Event.ensureDir "out"] } : St).trace =
      effectCount c5st.trace :=
  (c5_output_dir_ensured c5ext c5argv c5ps c5st).2.2.1
    "EACCES: cannot create directory out"
    { fs := c5st.fs, trace := [Event.ensureDir "out"] } rfl

theorem assocLookup_setArm {β : Type} (fs : List (String × β)) (k : String) (v : β) :
    assocLookup (fs.map (fun p => if p.1 = k then (k, v) else p)) k =
      if (assocLookup fs k).isSome then some v else none := by
  induction fs with
  | nil => simp [assocLookup]
  | cons hd tl ih =>
    obtain ⟨k1, v1⟩ := hd
    rw [List.map_cons]
    by_cases hk : k1 = k
    · subst hk
      rw [if_pos rfl]
      simp [assocLookup, ih]
    · rw [if_neg hk]
      simp [assocLookup, hk, ih]

theorem assocLookup_setArm_ne {β : Type} (fs : List (String × β)) (k : String)
    (v : β) (k2 : String) (h : k2 ≠ k) :
    assocLookup (fs.map (fun p => if p.1 = k then (k, v) else p)) k2 =
      assocLookup fs k2 := by
  induction fs with
  | nil => simp
  | cons hd tl ih =>
    obtain ⟨k1, v1⟩ := hd
    rw [List.map_cons]
    by_cases hk : k1 = k
    · subst hk
      rw [if_pos rfl]
      simp [assocLookup, Ne.symm h, ih]
    · rw [if_neg hk]
      by_cases hk2 : k1 = k2 <;> simp [assocLookup, hk, hk2, ih]

theorem assocLookup_append {β : Type} (l1 l2 : List (String × β)) (k : String) :
    assocLookup (l1 ++ l2) k =
      match assocLookup l1 k with
      | some v => some v
      | none => assocLookup l2 k := by
  induction l1 with
  | nil => simp [assocLookup]
  | cons hd tl ih =>
    obtain ⟨k1, v1⟩ := hd
    rw [List.cons_append]
    by_cases hk : k1 = k <;> simp [assocLookup, hk, ih]

theorem assocLookup_assocSet {β : Type} (fs : List (String × β)) (k : String)
    (v : β) : assocLookup (assocSet fs k v) k = some v := by
  unfold assocSet
  split
  next h => rw [assocLookup_setArm]; simp [h]
  next h =>
    rw [assocLookup_append]
    have hn : assocLookup fs k = none := by
      cases hc : assocLookup fs k
      · rfl
      · rw [hc] at h; simp at h
    simp [hn, assocLookup]

theorem assocLookup_assocSet_ne {β : Type} (fs : List (String × β)) (k : String)
    (v : β) (k2 : String) (h : k2 ≠ k) :
    assocLookup (assocSet fs k v) k2 = assocLookup fs k2 := by
  unfold assocSet
  split
  next => rw [assocLookup_setArm_ne _ _ _ _ h]
  next =>
    rw [assocLookup_append]
    cases hc : assocLookup fs k2 <;> simp [assocLookup, Ne.symm h]

theorem assocLookup_removeField (fs : List (String × JSON)) (k : String) :
    assocLookup (removeField fs k) k = none := by
  induction fs with
  | nil => rfl
  | cons hd tl ih =>
    obtain ⟨k1, v1⟩ := hd
    by_cases hk : k1 = k
    · subst hk
      simpa [removeField] using ih
    · simp only [removeField, List.filter_cons] at *
      simp only [decide_not]
      rw [if_pos]
      · simpa [assocLookup, hk] using ih
      · simp [hk]

theorem assocLookup_removeField_ne (fs : List (String × JSON)) (k k2 : String)
    (h : k2 ≠ k) : assocLookup (removeField fs k) k2 = assocLookup fs k2 := by
  induction fs with
  | nil => rfl
  | cons hd tl ih =>
    obtain ⟨k1, v1⟩ := hd
    simp only [removeField, List.filter_cons] at *
    by_cases hk : k1 = k
    · subst hk
      simp only [decide_not] at *
      rw [if_neg (by simp), ih]
      simp [assocLookup, Ne.symm h]
    · simp only [decide_not]
      rw [if_pos]
      · simp only [decide_not] at ih
        by_cases hk2 : k1 = k2 <;> simp [assocLookup, hk, hk2, ih]
      · simp [hk]

theorem determineSchemaPath_state (ps : PrepareState) (s : St) :
    (determineSchemaPath ps s).2 = s := by
  unfold determineSchemaPath
  split <;> rfl

theorem storeWrites_emitSt (s : St) (e : Event) (h : isStoreSave e = false) :
    storeWrites (emitSt s e) = storeWrites s := by
  simp [emitSt, storeWrites, List.countP_append, List.countP_cons,
    List.countP_nil, h]

theorem storeWrites_writeFileSyncSt (s : St) (p c : String) :
    storeWrites (writeFileSyncSt s p c) = storeWrites s := by
  simp [writeFileSyncSt, emitSt, storeWrites, List.countP_append,
    List.countP_cons, List.countP_nil, isStoreSave]

theorem storeWrites_readFileSyncSt (s : St) (p : String) :
    storeWrites (readFileSyncSt s p).2 = storeWrites s := by
  simp only [readFileSyncSt]
  split <;>
    simp [emitSt, storeWrites, List.countP_append, List.countP_cons,
      List.countP_nil, isStoreSave]

theorem storeWrites_determineInputSchema (ps : PrepareState)
    (sp : Option String) (s : St) :
    storeWrites (determineInputSchema ps sp s).2 = storeWrites s := by
  unfold determineInputSchema
  split <;>
    first
      | rfl
      | (dsimp only
         simp only [existsSyncSt]
         split <;>
           first
             | rfl
             | (rename_i heq
                injection heq with h1 h2
                subst h2
                simp [emitSt, storeWrites, List.countP_append, List.countP_cons,
                  List.countP_nil, isStoreSave])
             | (split <;>
                 (rename_i heq2
                  injection heq2 with h1 h2
                  subst h2
                  simp [emitSt, storeWrites, List.countP_append, List.countP_cons,
                    List.countP_nil, isStoreSave])))

theorem storeWrites_spinnerStartSt (s : St) (m : String) :
    storeWrites (spinnerStartSt s m) = storeWrites s :=
  storeWrites_emitSt s (Event.spinnerStart m) rfl

theorem storeWrites_spinnerSucceedSt (s : St) (m : String) :
    storeWrites (spinnerSucceedSt s m) = storeWrites s :=
  storeWrites_emitSt s (Event.spinnerSucceed m) rfl

theorem storeWrites_spinnerInfoSt (s : St) (m : String) :
    storeWrites (spinnerInfoSt s m) = storeWrites s :=
  storeWrites_emitSt s (Event.spinnerInfo m) rfl

theorem storeWrites_processBundle (ext : Externals) (argv : Arguments)
    (ps : PrepareState) (s : St) :
    storeWrites (processBundle ext argv ps s).2 = storeWrites s := by
  unfold processBundle
  have hb := determineBundleOutputPath_preserves argv ps s
  rcases h1 : determineBundleOutputPath argv ps s with ⟨r1, s1⟩
  rw [h1] at hb
  cases r1 with
  | error e => exact hb.2.2
  | ok out =>
    dsimp only
    have hsp := determineSchemaPath_state ps s1
    rcases h2 : determineSchemaPath ps s1 with ⟨r2, s2⟩
    rw [h2] at hsp
    have hs2 : s2 = s1 := hsp
    cases r2 with
    | error e =>
      rw [hs2]
      exact hb.2.2
    | ok sch =>
      dsimp only
      rw [storeWrites_writeFileSyncSt, storeWrites_emitSt _ (Event.flatten sch) rfl, hs2]
      exact hb.2.2

theorem storeWrites_processBindings (ext : Externals) (argv : Arguments)
    (ps : PrepareState) (sp : Option String) (s : St) :
    storeWrites (processBindings ext argv ps sp s).2 = storeWrites s := by
  unfold processBindings
  have hg := determineGenerator_preserves argv ps s
  rcases h1 : determineGenerator argv ps s with ⟨r1, s1⟩
  rw [h1] at hg
  cases r1 with
  | error e => exact hg.2.2
  | ok gen =>
    dsimp only
    have hb := determineBindingOutputPath_preserves argv ps (bindingExtension gen) s1
    rcases h2 : determineBindingOutputPath argv ps (bindingExtension gen) s1 with ⟨r2, s2⟩
    rw [h2] at hb
    cases r2 with
    | error e => exact hb.2.2.trans hg.2.2
    | ok out =>
      dsimp only
      have hi := storeWrites_determineInputSchema ps sp s2
      rcases h3 : determineInputSchema ps sp s2 with ⟨r3, s3⟩
      rw [h3] at hi
      cases r3 with
      | error e => exact hi.trans (hb.2.2.trans hg.2.2)
      | ok sch =>
        dsimp only
        have hr := storeWrites_readFileSyncSt s3 sch
        rcases h4 : readFileSyncSt s3 sch with ⟨r4, s4⟩
        rw [h4] at hr
        cases r4 with
        | error e => exact hr.trans (hi.trans (hb.2.2.trans hg.2.2))
        | ok contents =>
          dsimp only
          rw [storeWrites_writeFileSyncSt, storeWrites_emitSt _ (Event.generate gen) rfl]
          exact hr.trans (hi.trans (hb.2.2.trans hg.2.2))

theorem storeWrites_bundleRun (ext : Externals) (argv : Arguments)
    (ps : PrepareState) (s : St) :
    storeWrites (Prepare.bundleRun ext argv ps s).2 = storeWrites s := by
  unfold Prepare.bundleRun
  dsimp only
  have hp := storeWrites_processBundle ext argv ps
    (spinnerStartSt s
      ("Processing schema imports for project " ++ chalkGreen ps.projectName ++ "..."))
  rcases h1 : processBundle ext argv ps
      (spinnerStartSt s
        ("Processing schema imports for project " ++ chalkGreen ps.projectName ++ "..."))
    with ⟨r1, s1⟩
  rw [h1] at hp
  rw [storeWrites_spinnerStartSt] at hp
  cases r1 with
  | error e => exact hp
  | ok out =>
    dsimp only
    rw [storeWrites_spinnerSucceedSt]
    exact hp

theorem storeWrites_bundle (ext : Externals) (argv : Arguments)
    (ps : PrepareState) (s : St) :
    storeWrites (Prepare.bundle ext argv ps s).2 = storeWrites s := by
  unfold Prepare.bundle
  split
  · exact storeWrites_bundleRun ext argv ps s
  · split
    · exact storeWrites_spinnerInfoSt s _
    · rfl

theorem storeWrites_bindingsRun (ext : Externals) (argv : Arguments)
    (ps : PrepareState) (s : St) :
    storeWrites (Prepare.bindingsRun ext argv ps s).2 = storeWrites s := by
  unfold Prepare.bindingsRun
  dsimp only
  have hp := storeWrites_processBindings ext argv ps ps.bundleExtensionConfig
    (spinnerStartSt s
      ("Generating bindings for project " ++ chalkGreen ps.projectName ++ "..."))
  rcases h1 : processBindings ext argv ps ps.bundleExtensionConfig
      (spinnerStartSt s
        ("Generating bindings for project " ++ chalkGreen ps.projectName ++ "..."))
    with ⟨r1, s1⟩
  rw [h1] at hp
  rw [storeWrites_spinnerStartSt] at hp
  cases r1 with
  | error e => exact hp
  | ok pr =>
    obtain ⟨out, gen⟩ := pr
    dsimp only
    rw [storeWrites_spinnerSucceedSt]
    exact hp

theorem storeWrites_bindings (ext : Externals) (argv : Arguments)
    (ps : PrepareState) (s : St) :
    storeWrites (Prepare.bindings ext argv ps s).2 = storeWrites s := by
  unfold Prepare.bindings
  split
  · exact storeWrites_bindingsRun ext argv ps s
  · split
    · exact storeWrites_spinnerInfoSt s _
    · rfl

theorem lodashHas_removeExtensionKey (c : JSON) (k : String) :
    lodashHas (removeExtensionKey c k) ["extensions", k] = false := by
  unfold removeExtensionKey
  split
  next hc =>
    cases c with
    | str v => rfl
    | obj fields =>
      rcases hl : assocLookup fields "extensions" with _ | v
      · simp [lodashHas, lodashGet, hl]
      · cases v with
        | str w => simp [lodashHas, lodashGet, hl]
        | obj ext0 =>
          simp [lodashHas, lodashGet, hl, assocLookup_assocSet,
            assocLookup_removeField]
  next hc =>
    cases hv : lodashHas c ["extensions", k]
    · rfl
    · exact absurd hv hc

theorem lodashGet_removeExtensionKey_ne (c : JSON) (k k2 : String)
    (h : k2 ≠ k) :
    lodashGet (removeExtensionKey c k) ["extensions", k2] =
      lodashGet c ["extensions", k2] := by
  unfold removeExtensionKey
  split
  · cases c with
    | str v => rfl
    | obj fields =>
      rcases hl : assocLookup fields "extensions" with _ | v
      · simp [hl]
      · cases v with
        | str w => simp [hl]
        | obj ext0 =>
          simp [lodashGet, assocLookup_assocSet, hl,
            assocLookup_removeField_ne _ _ _ h]
  · rfl

/-- C7: with `--save`, `Prepare.save` writes the merged project
configuration through the configuration store (one `storeSave` event with
the project's document), and the persisted document is exactly the merged
config with the deprecated `extensions.bundle` and `extensions.binding`
keys deleted while every other extension key is untouched; without
`--save`, `save` is a no-op and a whole project iteration performs no
configuration-store write at all. -/
theorem c7_save_persistence (ext : Externals) (cfg : GraphQLConfig)
    (argv : Arguments) (ps : PrepareState) (s : St) (name : String)
    (proj : GraphQLProjectConfig) :
    (argv.save = true →
      Prepare.save cfg argv ps s =
        (Except.ok
          { ps with project := { ps.project with config := removeExtensionKey (removeExtensionKey ps.project.config "bundle") "binding" } },
         spinnerSucceedSt
           (emitSt
             (spinnerStartSt s
               ("Saving configuration for project " ++ chalkGreen ps.projectName ++
                 " to " ++ chalkGreen (pathBasename cfg.configPath) ++ "..."))
             (Event.storeSave ps.projectName
               (removeExtensionKey (removeExtensionKey ps.project.config "bundle") "binding")))
           ("Configuration for project " ++ chalkGreen ps.projectName ++
             " saved to " ++ chalkGreen (pathBasename cfg.configPath)))) ∧
    lodashHas (removeExtensionKey (removeExtensionKey ps.project.config "bundle") "binding")
      ["extensions", "bundle"] = false ∧
    lodashHas (removeExtensionKey (removeExtensionKey ps.project.config "bundle") "binding")
      ["extensions", "binding"] = false ∧
    (∀ k2, k2 ≠ "bundle" → k2 ≠ "binding" →
      lodashGet (removeExtensionKey (removeExtensionKey ps.project.config "bundle") "binding")
        ["extensions", k2] = lodashGet ps.project.config ["extensions", k2]) ∧
    (argv.save = false → Prepare.save cfg argv ps s = (Except.ok ps, s)) ∧
    (argv.save = false →
      storeWrites (Prepare.processProject ext cfg argv name proj s).2 = storeWrites s) := by
  refine ⟨?_, ?_, ?_, ?_, ?_, ?_⟩
  · intro hsv
    simp [Prepare.save, Prepare.saveConfig, hsv]
  · have h1 : ("bundle" : String) ≠ "binding" := by decide
    show (lodashGet _ _).isSome = false
    rw [lodashGet_removeExtensionKey_ne _ _ _ h1]
    exact lodashHas_removeExtensionKey ps.project.config "bundle"
  · exact lodashHas_removeExtensionKey _ "binding"
  · intro k2 hb hbi
    rw [lodashGet_removeExtensionKey_ne _ _ _ hbi,
      lodashGet_removeExtensionKey_ne _ _ _ hb]
  · intro hsv
    simp [Prepare.save, hsv]
  · intro hsv
    unfold Prepare.processProject
    dsimp only
    have hB : storeWrites ((if argv.bundle then
        Prepare.bundle ext argv ⟨proj, name, none⟩ s
        else (Except.ok ⟨proj, name, none⟩, s)).2) = storeWrites s := by
      split
      · exact storeWrites_bundle ext argv _ s
      · rfl
    rcases h1 : (if argv.bundle then Prepare.bundle ext argv ⟨proj, name, none⟩ s
        else (Except.ok ⟨proj, name, none⟩, s)) with ⟨r1, s1⟩
    rw [h1] at hB
    cases r1 with
    | error e => exact hB
    | ok ps1 =>
      dsimp only
      have hB2 : storeWrites ((if argv.bindings then Prepare.bindings ext argv ps1 s1
          else (Except.ok ps1, s1)).2) = storeWrites s1 := by
        split
        · exact storeWrites_bindings ext argv ps1 s1
        · rfl
      rcases h2 : (if argv.bindings then Prepare.bindings ext argv ps1 s1
          else (Except.ok ps1, s1)) with ⟨r2, s2⟩
      rw [h2] at hB2
      cases r2 with
      | error e => exact hB2.trans hB
      | ok ps2 =>
        dsimp only
        rw [show Prepare.save cfg argv ps2 s2 = (Except.ok ps2, s2) by
          simp [Prepare.save, hsv]]
        exact hB2.trans hB

/-- C7 witness configuration: a deprecated `bundle` key next to an
unrelated `custom` key. -/
def c7config : JSON :=
  JSON.obj [("extensions", JSON.obj
    [("bundle", JSON.str "old.graphql"), ("custom", JSON.str "keep")])]

/-- C7 witness per-project state. -/
def c7ps : PrepareState :=
  { project := { schemaPath := some "schema.graphql", config := c7config },
    projectName := "app",
    bundleExtensionConfig := none }

/-- C7 witness host configuration. -/
def c7cfg : GraphQLConfig :=
  { projects := [], configPath := ".graphqlconfig.yml" }

/-- C7 witness arguments with `--save`. -/
def c7argv : Arguments :=
  { project := ProjectArg.noProject, output := none, save := true,
    bundle := false, bindings := false, generator := none, verbose := false }

/-- C7 witness state. -/
def c7st : St :=
  { fs := { files := [], dirs := [], failDirs := [] }, trace := [] }

/-- C7 witness externals. -/
def c7ext : Externals :=
  { flatten := fun p => p, generate := fun c _ => c }

/-- C7 witness: at the concrete input, `--save` persists the config with
the deprecated key dropped, and without `--save` nothing happens. -/
theorem c7_save_persistence_witness :
    Prepare.save c7cfg c7argv c7ps c7st =
      (Except.ok
        { c7ps with project := { c7ps.project with config := removeExtensionKey (removeExtensionKey c7ps.project.config "bundle") "binding" } },
       spinnerSucceedSt
         (emitSt
           (spinnerStartSt c7st
             ("Saving configuration for project " ++ chalkGreen c7ps.projectName ++
               " to " ++ chalkGreen (pathBasename c7cfg.configPath) ++ "..."))
           (Event.storeSave c7ps.projectName
             (removeExtensionKey (removeExtensionKey c7ps.project.config "bundle") "binding")))
         ("Configuration for project " ++ chalkGreen c7ps.projectName ++
           " saved to " ++ chalkGreen (pathBasename c7cfg.configPath))) ∧
    Prepare.save c7cfg { c7argv with save := false } c7ps c7st =
      (Except.ok c7ps, c7st) :=
  ⟨(c7_save_persistence c7ext c7cfg c7argv c7ps c7st "app" c7ps.project).1 rfl,
   (c7_save_persistence c7ext c7cfg { c7argv with save := false } c7ps c7st "app"
      c7ps.project).2.2.2.2.1 rfl⟩

theorem lodashMergeVal_str (d : JSON) (s0 : String) :
    lodashMergeVal d (JSON.str s0) = JSON.str s0 := by
  cases d <;> simp [lodashMergeVal]

theorem lodashMergeObj_nil (df : List (String × JSON)) :
    lodashMergeObj df [] = df := by
  simp [lodashMergeObj]

theorem lodashMergeObj_singleton (df : List (String × JSON)) (k : String)
    (v : JSON) :
    lodashMergeObj df [(k, v)] =
      assocSet df k
        (match assocLookup df k with
         | some dv => lodashMergeVal dv v
         | none => v) := by
  simp [lodashMergeObj]

theorem lodashMergeObj_lookup_none (sv : List (String × JSON)) :
    ∀ df k3, assocLookup sv k3 = none →
      assocLookup (lodashMergeObj df sv) k3 = assocLookup df k3 := by
  induction sv with
  | nil => intro df k3 _; simp [lodashMergeObj]
  | cons hd tl ih =>
    intro df k3 h
    obtain ⟨k, v⟩ := hd
    have hk : ¬(k = k3) := by
      intro hkk
      subst hkk
      simp [assocLookup] at h
    have ht : assocLookup tl k3 = none := by
      simpa [assocLookup, hk] using h
    rw [show lodashMergeObj df ((k, v) :: tl) =
        lodashMergeObj
          (assocSet df k
            (match assocLookup df k with
             | some dv => lodashMergeVal dv v
             | none => v)) tl from by simp [lodashMergeObj]]
    rw [ih _ _ ht]
    exact assocLookup_assocSet_ne _ _ _ _ (fun he => hk he.symm)

theorem assocLookup_eq_none_of_not_mem (l : List (String × JSON)) (k : String)
    (h : k ∉ l.map Prod.fst) : assocLookup l k = none := by
  induction l with
  | nil => rfl
  | cons hd tl ih =>
    obtain ⟨k1, v1⟩ := hd
    simp only [List.map_cons, List.mem_cons] at h
    push_neg at h
    have he : assocLookup ((k1, v1) :: tl) k =
        if k1 = k then some v1 else assocLookup tl k := rfl
    rw [he, if_neg (fun hh : k1 = k => h.1 hh.symm)]
    exact ih h.2

theorem lodashMergeObj_lookup_str (sv : List (String × JSON)) :
    ∀ df k3 s3, (sv.map Prod.fst).Nodup →
      assocLookup sv k3 = some (JSON.str s3) →
      assocLookup (lodashMergeObj df sv) k3 = some (JSON.str s3) := by
  induction sv with
  | nil => intro df k3 s3 _ h; cases h
  | cons hd tl ih =>
    intro df k3 s3 hnd h
    obtain ⟨k, v⟩ := hd
    rw [show lodashMergeObj df ((k, v) :: tl) =
        lodashMergeObj
          (assocSet df k
            (match assocLookup df k with
             | some dv => lodashMergeVal dv v
             | none => v)) tl from by simp [lodashMergeObj]]
    by_cases hk : k = k3
    · subst hk
      have hv : v = JSON.str s3 := by
        simpa [assocLookup] using h
      subst hv
      have hnotin : assocLookup tl k = none := by
        simp only [List.map_cons, List.nodup_cons] at hnd
        exact assocLookup_eq_none_of_not_mem tl k hnd.1
      rw [lodashMergeObj_lookup_none _ _ _ hnotin]
      have hnewv :
          (match assocLookup df k with
           | some dv => lodashMergeVal dv (JSON.str s3)
           | none => JSON.str s3) = JSON.str s3 := by
        cases assocLookup df k <;> simp [lodashMergeVal_str]
      rw [hnewv]
      exact assocLookup_assocSet df k (JSON.str s3)
    · have ht : assocLookup tl k3 = some (JSON.str s3) := by
        simpa [assocLookup, hk] using h
      have hnd2 : (tl.map Prod.fst).Nodup := by
        simp only [List.map_cons, List.nodup_cons] at hnd
        exact hnd.2
      exact ih _ _ _ hnd2 ht

/-- C9 configuration: the persisted `prepare-binding` object carries an
extra `custom` entry alongside `output` and `generator`. -/
def c9config : JSON :=
  JSON.obj [("extensions", JSON.obj
    [("prepare-binding", JSON.obj
      [("output", JSON.str "old/binding.js"), ("generator", JSON.str "oldgen"),
       ("custom", JSON.str "keep")])])]

/-- C9 per-project state. -/
def c9ps : PrepareState :=
  { project := { schemaPath := some "schema.graphql", config := c9config },
    projectName := "proj",
    bundleExtensionConfig := none }

/-- C9 arguments: bindings with explicit generator and output folder. -/
def c9argv : Arguments :=
  { project := ProjectArg.single "proj", output := some "out", save := false,
    bundle := false, bindings := true, generator := some "g2", verbose := false }

/-- C9 externals. -/
def c9ext : Externals :=
  { flatten := fun p => "FLAT " ++ p, generate := fun c g => g ++ ":" ++ c }

/-- C9 state: the schema file exists. -/
def c9st : St :=
  { fs := { files := [("schema.graphql", "SCHEMA")], dirs := [], failDirs := [] },
    trace := [] }

/-- The fresh binding fragment the C9 run produces. -/
def c9frag : List (String × JSON) :=
  [("prepare-binding", JSON.obj
    [("output", JSON.str "out/proj.js"), ("generator", JSON.str "g2")])]

/-- C9 counterexample: the binding step succeeds and merges its fresh
fragment into the project's extensions, but the merge is lodash's deep
merge, not a shallow last-write-wins one: the pre-existing `custom` entry
of `extensions.prepare-binding` survives, so the merged extensions do not
map `prepare-binding` to exactly the fragment's value. -/
theorem c9_merge_not_wholesale :
    (Prepare.bindings c9ext c9argv c9ps c9st).1 =
      Except.ok { c9ps with project := mergeIntoProject c9ps.project c9frag } ∧
    lodashGet (mergeIntoProject c9ps.project c9frag).config
      ["extensions", "prepare-binding", "custom"] = some (JSON.str "keep") := by
  constructor
  · rfl
  · have hm : mergeIntoProject c9ps.project c9frag =
        { schemaPath := some "schema.graphql",
          config := JSON.obj [("extensions", JSON.obj
            [("prepare-binding", JSON.obj
              [("output", JSON.str "out/proj.js"), ("generator", JSON.str "g2"),
               ("custom", JSON.str "keep")])])] } := by
      simp [mergeIntoProject, c9ps, c9config, c9frag, lodashMergeObj,
        lodashMergeVal, assocSet, assocLookup]
    rw [hm]
    rfl

/-- C9 amended: a step's fresh fragment is merged into the project's
`config.extensions` by lodash's deep merge (`mergeIntoProject` updates the
`extensions` object with `lodashMergeObj`).  For a fragment key `k`: a
string fragment value, or any fragment value over an absent or string
previous value, is installed exactly; when both the previous and fragment
values are objects they merge recursively, where fragment leaf entries
overwrite and previous entries absent from the fragment are preserved;
extension keys outside the fragment are untouched. -/
theorem c9_deep_merge_amended :
    (∀ (e : List (String × JSON)) (k s0 : String),
      assocLookup (lodashMergeObj e [(k, JSON.str s0)]) k = some (JSON.str s0)) ∧
    (∀ (e : List (String × JSON)) (k : String) (fv : JSON) (k2 : String),
      k2 ≠ k →
      assocLookup (lodashMergeObj e [(k, fv)]) k2 = assocLookup e k2) ∧
    (∀ (e : List (String × JSON)) (k : String) (sv dv : List (String × JSON)),
      assocLookup e k = some (JSON.obj dv) →
      assocLookup (lodashMergeObj e [(k, JSON.obj sv)]) k =
        some (JSON.obj (lodashMergeObj dv sv))) ∧
    (∀ (e : List (String × JSON)) (k : String) (sv : List (String × JSON)),
      assocLookup e k = none →
      assocLookup (lodashMergeObj e [(k, JSON.obj sv)]) k = some (JSON.obj sv)) ∧
    (∀ (e : List (String × JSON)) (k : String) (sv : List (String × JSON)) (s0 : String),
      assocLookup e k = some (JSON.str s0) →
      assocLookup (lodashMergeObj e [(k, JSON.obj sv)]) k = some (JSON.obj sv)) ∧
    (∀ (dv sv : List (String × JSON)) (k3 : String),
      assocLookup sv k3 = none →
      assocLookup (lodashMergeObj dv sv) k3 = assocLookup dv k3) ∧
    (∀ (dv sv : List (String × JSON)) (k3 s3 : String),
      (sv.map Prod.fst).Nodup →
      assocLookup sv k3 = some (JSON.str s3) →
      assocLookup (lodashMergeObj dv sv) k3 = some (JSON.str s3)) ∧
    (∀ (p : GraphQLProjectConfig) (frag fields ext0 : List (String × JSON)),
      p.config = JSON.obj fields →
      assocLookup fields "extensions" = some (JSON.obj ext0) →
      (mergeIntoProject p frag).config =
        JSON.obj (assocSet fields "extensions" (JSON.obj (lodashMergeObj ext0 frag)))) := by
  refine ⟨?_, ?_, ?_, ?_, ?_, ?_, ?_, ?_⟩
  · intro e k s0
    rw [lodashMergeObj_singleton]
    have hv : (match assocLookup e k with
        | some dv => lodashMergeVal dv (JSON.str s0)
        | none => JSON.str s0) = JSON.str s0 := by
      cases assocLookup e k <;> simp [lodashMergeVal_str]
    rw [hv]
    exact assocLookup_assocSet e k (JSON.str s0)
  · intro e k fv k2 h
    rw [lodashMergeObj_singleton]
    exact assocLookup_assocSet_ne _ _ _ _ h
  · intro e k sv dv hd
    rw [lodashMergeObj_singleton, hd]
    dsimp only
    rw [show lodashMergeVal (JSON.obj dv) (JSON.obj sv) =
        JSON.obj (lodashMergeObj dv sv) from by simp [lodashMergeVal]]
    exact assocLookup_assocSet e k _
  · intro e k sv hd
    rw [lodashMergeObj_singleton, hd]
    dsimp only
    exact assocLookup_assocSet e k _
  · intro e k sv s0 hd
    rw [lodashMergeObj_singleton, hd]
    dsimp only
    rw [show lodashMergeVal (JSON.str s0) (JSON.obj sv) = JSON.obj sv from by
      simp [lodashMergeVal]]
    exact assocLookup_assocSet e k _
  · exact fun dv sv k3 h => lodashMergeObj_lookup_none sv dv k3 h
  · exact fun dv sv k3 s3 hnd h => lodashMergeObj_lookup_str sv dv k3 s3 hnd h
  · intro p frag fields ext0 hp hext
    simp [mergeIntoProject, hp, hext]

/-- C9 amended witness: merging the fresh fragment
`{output: "new", generator: "g2"}` over a previous object that also holds
`custom` keeps `custom` and overwrites the fragment leaves. -/
theorem c9_deep_merge_amended_witness :
    assocLookup
      (lodashMergeObj [("output", JSON.str "old"), ("custom", JSON.str "keep")]
        [("output", JSON.str "new"), ("generator", JSON.str "g2")])
      "custom" = assocLookup [("output", JSON.str "old"), ("custom", JSON.str "keep")] "custom" ∧
    assocLookup
      (lodashMergeObj [("output", JSON.str "old"), ("custom", JSON.str "keep")]
        [("output", JSON.str "new"), ("generator", JSON.str "g2")])
      "output" = some (JSON.str "new") :=
  ⟨c9_deep_merge_amended.2.2.2.2.2.1
      [("output", JSON.str "old"), ("custom", JSON.str "keep")]
      [("output", JSON.str "new"), ("generator", JSON.str "g2")] "custom" rfl,
   c9_deep_merge_amended.2.2.2.2.2.2.1
      [("output", JSON.str "old"), ("custom", JSON.str "keep")]
      [("output", JSON.str "new"), ("generator", JSON.str "g2")] "output" "new"
      (by decide) rfl⟩
